import Mathlib

/-!
Shallow embedding of the pngsecret PNG chunk codec (src/chunk.rs,
src/commands.rs) together with the parts of the repository that are
declared but absent from src/ (src/chunk_type.rs and src/png.rs, which
main.rs references as `mod chunk_type` and `mod png`); those absent parts
are modelled from the specification and carry a doc comment saying so.

Bytes are represented as `Nat` values; "byte sequence" hypotheses say
every element is `< 256`.  `u32` values are `Nat` values `< 2 ^ 32`, with
`% 2 ^ 32` inserted exactly where the Rust code performs a narrowing cast
(`data.len() as u32` in `Chunk::new`).  Text arguments of the CLI layer
are represented by their UTF-8 byte sequences.
-/

namespace PngSecret

/-- Modelled from the spec: predicate on a byte used by the absent
src/chunk_type.rs, §3 "each required to be an ASCII letter (A–Z or a–z)". -/
def isAsciiLetter (b : Nat) : Bool :=
  (65 ≤ b && b ≤ 90) || (97 ≤ b && b ≤ 122)

/-- Modelled from the spec: the `ChunkType` value type of the absent
src/chunk_type.rs, §3 "exactly 4 bytes".  The ASCII-letter invariant is
carried as the separate predicate `ChunkType.isValid`, required as a
hypothesis wherever the spec guarantees it by construction. -/
structure ChunkType where
  b0 : Nat
  b1 : Nat
  b2 : Nat
  b3 : Nat
deriving DecidableEq

/-- Modelled from the spec: `ChunkType::bytes`, §4.1 "exposes the
canonical encoding" (the 4 raw bytes). -/
def ChunkType.bytes (t : ChunkType) : List Nat :=
  [t.b0, t.b1, t.b2, t.b3]

/-- Modelled from the spec: the invariant of §3, every byte an ASCII letter. -/
def ChunkType.isValid (t : ChunkType) : Bool :=
  isAsciiLetter t.b0 && isAsciiLetter t.b1 && isAsciiLetter t.b2 && isAsciiLetter t.b3

/-- Modelled from the spec: `ChunkType::try_from` of the absent
src/chunk_type.rs (`from_bytes` in §4.1): "fails with `InvalidTagBytes`
if any byte is outside ASCII letter range".  `none` stands for that failure. -/
def ChunkType.tryFrom (bs : List Nat) : Option ChunkType :=
  match bs with
  | [a, b, c, d] =>
    if isAsciiLetter a && isAsciiLetter b && isAsciiLetter c && isAsciiLetter d then
      some ⟨a, b, c, d⟩
    else
      none
  | _ => none

/-- The reflected CRC-32 generator polynomial 0xEDB88320, the ISO-HDLC /
zlib variant named by `CRC_32_ISO_HDLC` in src/chunk.rs line 135. -/
def CRC32_POLY : Nat := 3988292384

/-- One bit-step of the reflected CRC-32: shift right, conditionally xor
the polynomial (the `crc` crate's table is generated from this step). -/
def crcStep (c : Nat) : Nat :=
  (c / 2) ^^^ (if c % 2 = 1 then CRC32_POLY else 0)

/-- Eight bit-steps: processing of one absorbed byte. -/
def crc8 (c : Nat) : Nat :=
  crcStep (crcStep (crcStep (crcStep (crcStep (crcStep (crcStep (crcStep c)))))))

/-- Absorb one byte into the running CRC state. -/
def crcUpdate (c b : Nat) : Nat :=
  crc8 (c ^^^ b)

/-- Fold the CRC state over a byte sequence. -/
def crcFold (init : Nat) (m : List Nat) : Nat :=
  m.foldl crcUpdate init

/-- Embedding of `calculate_crc`, src/chunk.rs lines 134-137: CRC-32/ISO-HDLC with
initial value 0xFFFFFFFF and final xor 0xFFFFFFFF. -/
def calculate_crc (m : List Nat) : Nat :=
  (crcFold 4294967295 m) ^^^ 4294967295

/-- Embedding of the `Chunk` struct, src/chunk.rs lines 9-15: `length : u32`,
`chunk_type`, `data : Vec<u8>`, `crc : u32`. -/
structure Chunk where
  length : Nat
  chunk_type : ChunkType
  data : List Nat
  crc : Nat
deriving DecidableEq

/-- Embedding of `Chunk::new`, src/chunk.rs lines 18-33: length is `data.len() as u32`
(narrowing cast, hence `% 2 ^ 32`), crc is `calculate_crc` of the tag bytes
chained with the data bytes. -/
def Chunk.new (chunk_type : ChunkType) (data : List Nat) : Chunk :=
  { length := data.length % 2 ^ 32
    chunk_type := chunk_type
    crc := calculate_crc (chunk_type.bytes ++ data)
    data := data }

/-- Big-endian `u32::to_be_bytes`. -/
def toBeBytes (n : Nat) : List Nat :=
  [n / 2 ^ 24 % 256, n / 2 ^ 16 % 256, n / 2 ^ 8 % 256, n % 256]

/-- Big-endian `u32::from_be_bytes` (on lists that are not 4 long it
returns 0; the parser only applies it to 4-byte reads). -/
def fromBeBytes : List Nat → Nat
  | [a, b, c, d] => a * 2 ^ 24 + b * 2 ^ 16 + c * 2 ^ 8 + d
  | _ => 0

/-- Embedding of `Chunk::as_bytes`, src/chunk.rs lines 55-75: big-endian length,
tag bytes, data, big-endian crc. -/
def Chunk.as_bytes (c : Chunk) : List Nat :=
  toBeBytes c.length ++ c.chunk_type.bytes ++ c.data ++ toBeBytes c.crc

/-- Typed failures of the codec and the CLI layer (§7 of the spec); the
Rust code carries them as `std::io::Error` values. -/
inductive PngError where
  | unexpectedEof
  | invalidTagBytes
  | checksumMismatch
  | lengthMismatch
  | badSignature
  | trailingBytes
  | chunkNotFound
  | ioError
deriving DecidableEq

deriving instance DecidableEq for Except

/-- Embedding of `Read::read_exact` on an in-memory buffer: succeeds returning the
first `n` bytes and the rest iff at least `n` bytes are available,
otherwise fails (with `ErrorKind::UnexpectedEof` in Rust). -/
def readExact (n : Nat) (bs : List Nat) : Option (List Nat × List Nat) :=
  if n ≤ bs.length then some (bs.take n, bs.drop n) else none

/-- Embedding of `Chunk::try_from`, src/chunk.rs lines 78-126: read a 4-byte
big-endian length, 4 tag bytes (validated by `ChunkType::try_from`),
`length` data bytes, the dead length re-check of lines 95-100, a 4-byte
big-endian crc, and compare it against `calculate_crc` of tag bytes ++ data. -/
def Chunk.tryFrom (value : List Nat) : Except PngError Chunk :=
  match readExact 4 value with
  | none => .error .unexpectedEof
  | some (length_bytes, r1) =>
    match readExact 4 r1 with
    | none => .error .unexpectedEof
    | some (chunk_type_bytes, r2) =>
      match ChunkType.tryFrom chunk_type_bytes with
      | none => .error .invalidTagBytes
      | some chunk_type =>
        match readExact (fromBeBytes length_bytes) r2 with
        | none => .error .unexpectedEof
        | some (data, r3) =>
          if data.length ≠ fromBeBytes length_bytes then
            .error .lengthMismatch
          else
            match readExact 4 r3 with
            | none => .error .unexpectedEof
            | some (crc_bytes, _) =>
              if fromBeBytes crc_bytes ≠ calculate_crc (chunk_type_bytes ++ data) then
                .error .checksumMismatch
              else
                .ok { length := fromBeBytes length_bytes
                      chunk_type := chunk_type
                      data := data
                      crc := fromBeBytes crc_bytes }

/-- The canonical PNG signature, §6: `89 50 4E 47 0D 0A 1A 0A`. -/
def PNG_SIGNATURE : List Nat := [137, 80, 78, 71, 13, 10, 26, 10]

/-- Modelled from the spec: the `Png` container of the absent src/png.rs,
§3 "an ordered sequence of Chunk" (the fixed signature is a constant, so
only the sequence is stored). -/
structure Png where
  chunks : List Chunk
deriving DecidableEq

/-- Modelled from the spec: the chunk-stream loop of `Png::try_from` in the
absent src/png.rs, §4.3: "Repeatedly invokes Chunk::parse on the remaining
bytes, advancing past each parsed chunk's total encoded length, until the
buffer is exhausted; propagates any Chunk::parse failure", and "Fails with
`TrailingBytes` if a partial chunk header remains that is too short to
parse".  The structural fuel argument (instantiated with the buffer length,
an upper bound on the chunk count) only makes the recursion structural;
each step consumes at least 12 bytes, so it is never exhausted. -/
def parseChunks : Nat → List Nat → Except PngError (List Chunk)
  | _, [] => .ok []
  | 0, _ :: _ => .error .trailingBytes
  | fuel + 1, b :: rest =>
    if (b :: rest).length < 8 then .error .trailingBytes
    else
      match Chunk.tryFrom (b :: rest) with
      | .error e => .error e
      | .ok c =>
        match parseChunks fuel ((b :: rest).drop (12 + c.data.length)) with
        | .error e => .error e
        | .ok cs => .ok (c :: cs)

/-- Modelled from the spec: `Png::try_from` of the absent src/png.rs, §4.3:
"reads the first 8 bytes and fails with `BadSignature` if they do not equal
the canonical signature", then parses the chunk stream. -/
def Png.tryFrom (bs : List Nat) : Except PngError Png :=
  if bs.take 8 = PNG_SIGNATURE then
    match parseChunks bs.length (bs.drop 8) with
    | .error e => .error e
    | .ok cs => .ok ⟨cs⟩
  else
    .error .badSignature

/-- Modelled from the spec: `Png::append_chunk` of the absent src/png.rs,
§4.3 "inserts at the end of the sequence; always succeeds". -/
def Png.append_chunk (p : Png) (c : Chunk) : Png :=
  ⟨p.chunks ++ [c]⟩

/-- Modelled from the spec: removal of the first chunk whose tag matches;
the tag text is represented by its 4 UTF-8 bytes, which for ASCII-letter
tags is a faithful rendering of "the first chunk matching `tag`". -/
def removeFirst (tag : List Nat) : List Chunk → Option (Chunk × List Chunk)
  | [] => none
  | c :: cs =>
    if c.chunk_type.bytes = tag then some (c, cs)
    else
      match removeFirst tag cs with
      | none => none
      | some (r, rest) => some (r, c :: rest)

/-- Modelled from the spec: `Png::remove_chunk` of the absent src/png.rs,
§4.3 "removes and returns the first chunk matching `tag`; fails with
`ChunkNotFound` if no chunk matches".  The mutated container is returned
alongside the removed chunk. -/
def Png.remove_chunk (p : Png) (tag : List Nat) : Except PngError (Chunk × Png) :=
  match removeFirst tag p.chunks with
  | none => .error .chunkNotFound
  | some (c, rest) => .ok (c, ⟨rest⟩)

/-- Modelled from the spec: `Png::as_bytes` of the absent src/png.rs, §4.3
"emits the 8-byte signature followed by each chunk's serialize() output in
sequence order". -/
def Png.as_bytes (p : Png) : List Nat :=
  PNG_SIGNATURE ++ (p.chunks.map Chunk.as_bytes).flatten

/-- Embedding of `RemoveArgs` from src/args.rs (paths as strings, the tag text as its
UTF-8 bytes). -/
structure RemoveArgs where
  file_path : String
  chunk_type : List Nat

/-- Embedding of `EncodeArgs` from src/args.rs. -/
structure EncodeArgs where
  file_path : String
  chunk_type : List Nat
  message : List Nat
  output_file : Option String

/-- The world state the CLI layer acts on: the file system (contents of
each path) and the console (one entry per printed line, a printed chunk
abstracted to its payload bytes). -/
structure SysState where
  fs : String → Option (List Nat)
  console : List (List Nat)

/-- Embedding of `std::fs::read`: returns the file's bytes, failing when absent. -/
def fsRead (s : SysState) (p : String) : Except PngError (List Nat) :=
  match s.fs p with
  | some bs => .ok bs
  | none => .error .ioError

/-- Embedding of `std::fs::write`: replaces the contents stored at the path. -/
def fsWrite (s : SysState) (p : String) (bs : List Nat) : SysState :=
  { s with fs := fun q => if q = p then some bs else s.fs q }

/-- Embedding of `println!`: appends a line to the console. -/
def printLine (s : SysState) (bs : List Nat) : SysState :=
  { s with console := s.console ++ [bs] }

/-- Embedding of `run_remove`, src/commands.rs lines 43-53: read the file, parse it,
remove the first chunk with the given tag, print the removed chunk.  Every
failure propagates; no write to the file system appears in the source. -/
def run_remove (args : RemoveArgs) (s : SysState) : Except PngError Unit × SysState :=
  match fsRead s args.file_path with
  | .error e => (.error e, s)
  | .ok file_bytes =>
    match Png.tryFrom file_bytes with
    | .error e => (.error e, s)
    | .ok png =>
      match png.remove_chunk args.chunk_type with
      | .error e => (.error e, s)
      | .ok (removed, _) => (.ok (), printLine s removed.data)

/-- Embedding of `run_encode`, src/commands.rs lines 11-26: read, parse, append a
fresh chunk; write the serialized container back only when an output path
was given.  The chunk-type string is validated by `ChunkType::from_str`,
modelled here on the tag's UTF-8 bytes. -/
def run_encode (args : EncodeArgs) (s : SysState) : Except PngError Unit × SysState :=
  match fsRead s args.file_path with
  | .error e => (.error e, s)
  | .ok file_bytes =>
    match Png.tryFrom file_bytes with
    | .error e => (.error e, s)
    | .ok png =>
      match ChunkType.tryFrom args.chunk_type with
      | none => (.error .invalidTagBytes, s)
      | some chunk_type =>
        let png2 := png.append_chunk (Chunk.new chunk_type args.message)
        match args.output_file with
        | some output_file => (.ok (), fsWrite s output_file png2.as_bytes)
        | none => (.ok (), s)

/-- Flip of bit `j` of byte `i` in a byte buffer (the corruption model of
the checksum-sensitivity property in §8 of the spec). -/
def flipBit (bs : List Nat) (i j : Nat) : List Nat :=
  bs.set i (bs.getD i 0 ^^^ 2 ^ j)

/-- The 42 UTF-8 bytes of "This is where your secret message will be!",
the payload of the end-to-end scenario in §8 of the spec and of the tests
in src/chunk.rs. -/
def secretMessage : List Nat :=
  [84, 104, 105, 115, 32, 105, 115, 32, 119, 104, 101, 114, 101, 32, 121, 111,
   117, 114, 32, 115, 101, 99, 114, 101, 116, 32, 109, 101, 115, 115, 97, 103,
   101, 32, 119, 105, 108, 108, 32, 98, 101, 33]

/-- State reached after absorbing `n` zero bytes starting from state `d`
with a zero initial value folded in: the pure propagation of an error term. -/
def crcZeros (d : Nat) : Nat → Nat
  | 0 => d
  | n + 1 => crcZeros (crc8 d) n

/-! CRC-32 algebra: the step function is linear over xor, maps nothing but
zero to zero on 32-bit states, and therefore distinguishes any two
messages that differ in exactly one bit. -/

lemma xor_div_two (a b : Nat) : (a ^^^ b) / 2 = (a / 2) ^^^ (b / 2) := by
  apply Nat.eq_of_testBit_eq
  intro i
  simp only [Nat.testBit_div_two, Nat.testBit_xor]

lemma xor_mod_two (a b : Nat) : (a ^^^ b) % 2 = (a % 2 + b % 2) % 2 := by
  have h := Nat.testBit_xor a b 0
  simp only [Nat.testBit_zero] at h
  have hx := Nat.mod_two_eq_zero_or_one (a ^^^ b)
  rcases Nat.mod_two_eq_zero_or_one a with h1 | h1 <;>
    rcases Nat.mod_two_eq_zero_or_one b with h2 | h2 <;>
      rw [h1, h2] at h ⊢ <;> norm_num at h ⊢ <;> omega

lemma xor_cancel_right (x y p : Nat) : (x ^^^ p) ^^^ (y ^^^ p) = x ^^^ y := by
  rw [Nat.xor_comm y p, ← Nat.xor_assoc, Nat.xor_assoc x p p, Nat.xor_self, Nat.xor_zero]

lemma xor_left_comm (a b c : Nat) : a ^^^ (b ^^^ c) = b ^^^ (a ^^^ c) := by
  rw [← Nat.xor_assoc, Nat.xor_comm a b, Nat.xor_assoc]

lemma crcStep_xor (a b : Nat) : crcStep (a ^^^ b) = crcStep a ^^^ crcStep b := by
  unfold crcStep
  have hd := xor_div_two a b
  have hm := xor_mod_two a b
  rcases Nat.mod_two_eq_zero_or_one a with h1 | h1 <;>
    rcases Nat.mod_two_eq_zero_or_one b with h2 | h2
  · have hm0 : (a ^^^ b) % 2 = 0 := by rw [hm, h1, h2]
    rw [if_neg (by omega), if_neg (by omega), if_neg (by omega), hd,
      Nat.xor_zero, Nat.xor_zero, Nat.xor_zero]
  · have hm1 : (a ^^^ b) % 2 = 1 := by rw [hm, h1, h2]
    rw [if_pos hm1, if_neg (by omega), if_pos h2, hd, Nat.xor_zero]
    simp [Nat.xor_comm, Nat.xor_assoc, xor_left_comm]
  · have hm1 : (a ^^^ b) % 2 = 1 := by rw [hm, h1, h2]
    rw [if_pos hm1, if_pos h1, if_neg (by omega), hd, Nat.xor_zero]
    simp [Nat.xor_comm, Nat.xor_assoc, xor_left_comm]
  · have hm0 : (a ^^^ b) % 2 = 0 := by rw [hm, h1, h2]
    rw [if_neg (by omega), if_pos h1, if_pos h2, hd, Nat.xor_zero, xor_cancel_right]

lemma crc8_xor (a b : Nat) : crc8 (a ^^^ b) = crc8 a ^^^ crc8 b := by
  simp [crc8, crcStep_xor]

lemma crcUpdate_xor_left (c d b : Nat) :
    crcUpdate (c ^^^ d) b = crcUpdate c b ^^^ crc8 d := by
  unfold crcUpdate
  rw [show (c ^^^ d) ^^^ b = (c ^^^ b) ^^^ d by
        rw [Nat.xor_assoc, Nat.xor_comm d b, ← Nat.xor_assoc],
      crc8_xor]

lemma crcFold_xor_state :
    ∀ (m : List Nat) (i d : Nat),
      crcFold (i ^^^ d) m = crcFold i m ^^^ crcZeros d m.length
  | [], i, d => by simp [crcFold, crcZeros]
  | b :: m, i, d => by
    show crcFold (crcUpdate (i ^^^ d) b) m = _
    rw [crcUpdate_xor_left, crcFold_xor_state m (crcUpdate i b) (crc8 d)]
    rfl

lemma crcStep_lt (c : Nat) (h : c < 2 ^ 32) : crcStep c < 2 ^ 32 := by
  unfold crcStep
  have h1 : c / 2 < 2 ^ 32 := lt_of_le_of_lt (Nat.div_le_self c 2) h
  split
  · exact Nat.xor_lt_two_pow h1 (by norm_num [CRC32_POLY])
  · exact Nat.xor_lt_two_pow h1 (by norm_num)

lemma crcStep_ne_zero (c : Nat) (h : c < 2 ^ 32) (h0 : c ≠ 0) : crcStep c ≠ 0 := by
  unfold crcStep
  rcases Nat.mod_two_eq_zero_or_one c with h1 | h1
  · rw [if_neg (by omega), Nat.xor_zero]
    omega
  · rw [if_pos h1]
    intro hz
    have h2 : c / 2 = CRC32_POLY := Nat.xor_eq_zero.mp hz
    unfold CRC32_POLY at h2
    omega

lemma crcStep_good (c : Nat) (h : c < 2 ^ 32 ∧ c ≠ 0) :
    crcStep c < 2 ^ 32 ∧ crcStep c ≠ 0 :=
  ⟨crcStep_lt c h.1, crcStep_ne_zero c h.1 h.2⟩

lemma crc8_good (c : Nat) (h : c < 2 ^ 32 ∧ c ≠ 0) :
    crc8 c < 2 ^ 32 ∧ crc8 c ≠ 0 := by
  unfold crc8
  exact crcStep_good _ (crcStep_good _ (crcStep_good _ (crcStep_good _
    (crcStep_good _ (crcStep_good _ (crcStep_good _ (crcStep_good _ h)))))))

lemma crcZeros_good :
    ∀ (n : Nat) (d : Nat), d < 2 ^ 32 ∧ d ≠ 0 → crcZeros d n < 2 ^ 32 ∧ crcZeros d n ≠ 0
  | 0, _, h => h
  | n + 1, d, h => crcZeros_good n (crc8 d) (crc8_good d h)

lemma xor_ne_of_ne_zero (x d : Nat) (h : d ≠ 0) : x ^^^ d ≠ x := by
  intro he
  apply h
  have h2 := congrArg (fun z => x ^^^ z) he
  simp only at h2
  rwa [← Nat.xor_assoc, Nat.xor_self, Nat.zero_xor] at h2

lemma crc8_pow_good : ∀ j, j < 8 → crc8 (2 ^ j) < 2 ^ 32 ∧ crc8 (2 ^ j) ≠ 0 := by decide

lemma crcFold_set_ne :
    ∀ (m : List Nat) (k i j : Nat), k < m.length → j < 8 →
      crcFold i (m.set k (m.getD k 0 ^^^ 2 ^ j)) ≠ crcFold i m := by
  intro m
  induction m with
  | nil => intro k i j hk _; simp at hk
  | cons b m ih =>
    intro k i j hk hj
    cases k with
    | zero =>
      show crcFold (crcUpdate i ((b :: m).getD 0 0 ^^^ 2 ^ j)) m ≠
        crcFold (crcUpdate i b) m
      have hg : (b :: m).getD 0 0 = b := rfl
      rw [hg, show crcUpdate i (b ^^^ 2 ^ j) = crcUpdate ((i ^^^ 2 ^ j)) b by
            unfold crcUpdate
            rw [Nat.xor_assoc i (2 ^ j) b, Nat.xor_comm (2 ^ j) b, ← Nat.xor_assoc]]
      rw [crcUpdate_xor_left, crcFold_xor_state]
      exact xor_ne_of_ne_zero _ _
        (crcZeros_good m.length (crc8 (2 ^ j)) (crc8_pow_good j hj)).2
    | succ k =>
      show crcFold (crcUpdate i b) (m.set k ((b :: m).getD (k + 1) 0 ^^^ 2 ^ j)) ≠
        crcFold (crcUpdate i b) m
      have hg : (b :: m).getD (k + 1) 0 = m.getD k 0 := rfl
      rw [hg]
      exact ih k (crcUpdate i b) j (by simpa using hk) hj

lemma calculate_crc_set_ne (m : List Nat) (k j : Nat) (hk : k < m.length) (hj : j < 8) :
    calculate_crc (m.set k (m.getD k 0 ^^^ 2 ^ j)) ≠ calculate_crc m := by
  unfold calculate_crc
  intro he
  apply crcFold_set_ne m k 4294967295 j hk hj
  have h2 := congrArg (fun z => z ^^^ 4294967295) he
  simpa [Nat.xor_assoc] using h2

lemma crc8_lt (c : Nat) (h : c < 2 ^ 32) : crc8 c < 2 ^ 32 := by
  unfold crc8
  exact crcStep_lt _ (crcStep_lt _ (crcStep_lt _ (crcStep_lt _
    (crcStep_lt _ (crcStep_lt _ (crcStep_lt _ (crcStep_lt _ h)))))))

lemma crcFold_lt :
    ∀ (m : List Nat) (i : Nat), i < 2 ^ 32 → (∀ b ∈ m, b < 2 ^ 32) → crcFold i m < 2 ^ 32
  | [], i, hi, _ => hi
  | b :: m, i, hi, hb => by
    show crcFold (crcUpdate i b) m < 2 ^ 32
    apply crcFold_lt m _ _ (fun x hx => hb x (List.mem_cons_of_mem b hx))
    exact crc8_lt _ (Nat.xor_lt_two_pow hi (hb b (List.mem_cons_self b m)))

lemma calculate_crc_lt (m : List Nat) (h : ∀ b ∈ m, b < 2 ^ 32) :
    calculate_crc m < 2 ^ 32 := by
  unfold calculate_crc
  exact Nat.xor_lt_two_pow (crcFold_lt m 4294967295 (by norm_num) h) (by norm_num)

/-! Parser stage analysis: `Chunk.tryFrom` examined stage by stage on an
arbitrary buffer, then on a well-framed buffer. -/

lemma readExact_none (n : Nat) (bs : List Nat) (h : bs.length < n) :
    readExact n bs = none := by
  unfold readExact
  rw [if_neg (by omega)]

lemma readExact_some (n : Nat) (bs : List Nat) (h : n ≤ bs.length) :
    readExact n bs = some (bs.take n, bs.drop n) := by
  unfold readExact
  rw [if_pos h]

lemma tryFrom_eof_len (buf : List Nat) (h : buf.length < 4) :
    Chunk.tryFrom buf = .error .unexpectedEof := by
  unfold Chunk.tryFrom
  rw [readExact_none 4 buf h]

lemma tryFrom_eof_tag (buf : List Nat) (h4 : 4 ≤ buf.length) (h8 : buf.length < 8) :
    Chunk.tryFrom buf = .error .unexpectedEof := by
  unfold Chunk.tryFrom
  rw [readExact_some 4 buf h4]
  dsimp only
  rw [readExact_none 4 (buf.drop 4) (by rw [List.length_drop]; omega)]

lemma tryFrom_unfold (buf : List Nat) (h8 : 8 ≤ buf.length) :
    Chunk.tryFrom buf =
      match ChunkType.tryFrom ((buf.drop 4).take 4) with
      | none => .error .invalidTagBytes
      | some chunk_type =>
        match readExact (fromBeBytes (buf.take 4)) (buf.drop 8) with
        | none => .error .unexpectedEof
        | some (data, r3) =>
          if data.length ≠ fromBeBytes (buf.take 4) then
            .error .lengthMismatch
          else
            match readExact 4 r3 with
            | none => .error .unexpectedEof
            | some (crc_bytes, _) =>
              if fromBeBytes crc_bytes ≠ calculate_crc ((buf.drop 4).take 4 ++ data) then
                .error .checksumMismatch
              else
                .ok { length := fromBeBytes (buf.take 4)
                      chunk_type := chunk_type
                      data := data
                      crc := fromBeBytes crc_bytes } := by
  unfold Chunk.tryFrom
  rw [readExact_some 4 buf (by omega)]
  dsimp only
  rw [readExact_some 4 (buf.drop 4) (by rw [List.length_drop]; omega)]
  dsimp only
  rw [List.drop_drop]

lemma tryFrom_eof_payload (buf : List Nat) (h8 : 8 ≤ buf.length)
    (ht : (ChunkType.tryFrom ((buf.drop 4).take 4)).isSome)
    (hlt : buf.length < 8 + fromBeBytes (buf.take 4)) :
    Chunk.tryFrom buf = .error .unexpectedEof := by
  rw [tryFrom_unfold buf h8]
  obtain ⟨t, ht2⟩ := Option.isSome_iff_exists.mp ht
  rw [ht2]
  dsimp only
  rw [readExact_none _ (buf.drop 8) (by rw [List.length_drop]; omega)]

lemma tryFrom_eof_crc (buf : List Nat)
    (hp : 8 + fromBeBytes (buf.take 4) ≤ buf.length)
    (ht : (ChunkType.tryFrom ((buf.drop 4).take 4)).isSome)
    (hlt : buf.length < 12 + fromBeBytes (buf.take 4)) :
    Chunk.tryFrom buf = .error .unexpectedEof := by
  rw [tryFrom_unfold buf (by omega)]
  obtain ⟨t, ht2⟩ := Option.isSome_iff_exists.mp ht
  rw [ht2]
  dsimp only
  rw [readExact_some _ (buf.drop 8) (by rw [List.length_drop]; omega)]
  dsimp only
  have hd : ((buf.drop 8).take (fromBeBytes (buf.take 4))).length =
      fromBeBytes (buf.take 4) := by
    rw [List.length_take, List.length_drop]
    omega
  rw [if_neg (by rw [hd]; exact fun h => h rfl)]
  rw [List.drop_drop]
  rw [readExact_none 4 _ (by rw [List.length_drop]; omega)]

lemma tryFrom_crc_bad (buf : List Nat)
    (hp : 12 + fromBeBytes (buf.take 4) ≤ buf.length)
    (ht : (ChunkType.tryFrom ((buf.drop 4).take 4)).isSome)
    (hcrc : fromBeBytes ((buf.drop (8 + fromBeBytes (buf.take 4))).take 4) ≠
      calculate_crc ((buf.drop 4).take 4 ++ (buf.drop 8).take (fromBeBytes (buf.take 4)))) :
    Chunk.tryFrom buf = .error .checksumMismatch := by
  rw [tryFrom_unfold buf (by omega)]
  obtain ⟨t, ht2⟩ := Option.isSome_iff_exists.mp ht
  rw [ht2]
  dsimp only
  rw [readExact_some _ (buf.drop 8) (by rw [List.length_drop]; omega)]
  dsimp only
  have hd : ((buf.drop 8).take (fromBeBytes (buf.take 4))).length =
      fromBeBytes (buf.take 4) := by
    rw [List.length_take, List.length_drop]
    omega
  rw [if_neg (by rw [hd]; exact fun h => h rfl)]
  rw [List.drop_drop]
  rw [readExact_some 4 _ (by rw [List.length_drop]; omega)]
  dsimp only
  rw [if_pos hcrc]

lemma tryFrom_ok (buf : List Nat) (t : ChunkType)
    (hp : 12 + fromBeBytes (buf.take 4) ≤ buf.length)
    (ht : ChunkType.tryFrom ((buf.drop 4).take 4) = some t)
    (hcrc : fromBeBytes ((buf.drop (8 + fromBeBytes (buf.take 4))).take 4) =
      calculate_crc ((buf.drop 4).take 4 ++ (buf.drop 8).take (fromBeBytes (buf.take 4)))) :
    Chunk.tryFrom buf =
      .ok { length := fromBeBytes (buf.take 4)
            chunk_type := t
            data := (buf.drop 8).take (fromBeBytes (buf.take 4))
            crc := fromBeBytes ((buf.drop (8 + fromBeBytes (buf.take 4))).take 4) } := by
  rw [tryFrom_unfold buf (by omega)]
  rw [ht]
  dsimp only
  rw [readExact_some _ (buf.drop 8) (by rw [List.length_drop]; omega)]
  dsimp only
  have hd : ((buf.drop 8).take (fromBeBytes (buf.take 4))).length =
      fromBeBytes (buf.take 4) := by
    rw [List.length_take, List.length_drop]
    omega
  rw [if_neg (by rw [hd]; exact fun h => h rfl)]
  rw [List.drop_drop]
  rw [readExact_some 4 _ (by rw [List.length_drop]; omega)]
  dsimp only
  rw [if_neg (fun h => h hcrc)]

lemma tryFrom_tag_invalid (buf : List Nat) (h8 : 8 ≤ buf.length)
    (ht : ChunkType.tryFrom ((buf.drop 4).take 4) = none) :
    Chunk.tryFrom buf = .error .invalidTagBytes := by
  rw [tryFrom_unfold buf h8, ht]

lemma toBeBytes_length (n : Nat) : (toBeBytes n).length = 4 := rfl

lemma fromBe_toBe (n : Nat) (h : n < 2 ^ 32) : fromBeBytes (toBeBytes n) = n := by
  show n / 2 ^ 24 % 256 * 2 ^ 24 + n / 2 ^ 16 % 256 * 2 ^ 16 + n / 2 ^ 8 % 256 * 2 ^ 8 +
    n % 256 = n
  omega

lemma tryFrom_bytes_of_valid (t : ChunkType) (h : t.isValid = true) :
    ChunkType.tryFrom t.bytes = some t := by
  obtain ⟨b0, b1, b2, b3⟩ := t
  simp only [ChunkType.isValid, Bool.and_eq_true] at h
  obtain ⟨⟨⟨h0, h1⟩, h2⟩, h3⟩ := h
  simp [ChunkType.tryFrom, ChunkType.bytes, h0, h1, h2, h3]

lemma valid_bytes_lt (t : ChunkType) (h : t.isValid = true) :
    ∀ b ∈ t.bytes, b < 2 ^ 32 := by
  obtain ⟨b0, b1, b2, b3⟩ := t
  simp only [ChunkType.isValid, Bool.and_eq_true] at h
  obtain ⟨⟨⟨h0, h1⟩, h2⟩, h3⟩ := h
  simp only [isAsciiLetter, Bool.or_eq_true, Bool.and_eq_true, decide_eq_true_eq]
    at h0 h1 h2 h3
  intro b hb
  simp only [ChunkType.bytes, List.mem_cons, List.not_mem_nil, or_false] at hb
  rcases hb with rfl | rfl | rfl | rfl <;> omega

lemma drop_four_toBe (n : Nat) (ys : List Nat) : (toBeBytes n ++ ys).drop 4 = ys := rfl

lemma take_four_toBeBytes (n : Nat) : (toBeBytes n).take 4 = toBeBytes n := rfl

lemma new_crc_lt (t : ChunkType) (data : List Nat) (hvalid : t.isValid = true)
    (hbytes : ∀ b ∈ data, b < 256) : calculate_crc (t.bytes ++ data) < 2 ^ 32 := by
  apply calculate_crc_lt
  intro b hb
  rcases List.mem_append.mp hb with h | h
  · exact valid_bytes_lt t hvalid b h
  · have := hbytes b h
    omega

/-- Parse of a well-framed buffer: a 4-byte big-endian length `n`, a middle
region `M` of `4 + n` bytes (tag and payload), and at least 4 further bytes
holding the stored checksum. -/
lemma tryFrom_framed (n : Nat) (M rest : List Nat) (hM : M.length = 4 + n)
    (hn : n < 2 ^ 32) (hr : 4 ≤ rest.length) :
    Chunk.tryFrom (toBeBytes n ++ (M ++ rest)) =
      match ChunkType.tryFrom (M.take 4) with
      | none => .error .invalidTagBytes
      | some t =>
        if fromBeBytes (rest.take 4) = calculate_crc M then
          .ok { length := n, chunk_type := t, data := M.drop 4,
                crc := fromBeBytes (rest.take 4) }
        else
          .error .checksumMismatch := by
  have hA : (toBeBytes n).length = 4 := rfl
  have e0 : (toBeBytes n ++ (M ++ rest)).take 4 = toBeBytes n := by
    rw [← hA, List.take_left]
  have e0d : (toBeBytes n ++ (M ++ rest)).drop 4 = M ++ rest := by
    rw [← hA, List.drop_left]
  have e1 : fromBeBytes ((toBeBytes n ++ (M ++ rest)).take 4) = n := by
    rw [e0, fromBe_toBe n hn]
  have e2 : ((toBeBytes n ++ (M ++ rest)).drop 4).take 4 = M.take 4 := by
    rw [e0d, List.take_append_of_le_length (by omega)]
  have hd8 : (toBeBytes n ++ (M ++ rest)).drop 8 = M.drop 4 ++ rest := by
    have h2 : (toBeBytes n ++ (M ++ rest)).drop 8 =
        ((toBeBytes n ++ (M ++ rest)).drop 4).drop 4 := by
      rw [List.drop_drop]
    rw [h2, e0d, List.drop_append_of_le_length (by omega)]
  have hlen4 : (M.drop 4).length = n := by
    rw [List.length_drop, hM]
    omega
  have e3 : ((toBeBytes n ++ (M ++ rest)).drop 8).take n = M.drop 4 := by
    rw [hd8, ← hlen4, List.take_left]
  have e4 : (toBeBytes n ++ (M ++ rest)).drop (8 + n) = rest := by
    have h2 : (toBeBytes n ++ (M ++ rest)).drop (8 + n) =
        ((toBeBytes n ++ (M ++ rest)).drop 8).drop n := by
      rw [List.drop_drop]
    rw [h2, hd8, ← hlen4, List.drop_left]
  have elen : (toBeBytes n ++ (M ++ rest)).length = 8 + n + rest.length := by
    simp only [List.length_append, hA, hM]
    omega
  cases htag : ChunkType.tryFrom (M.take 4) with
  | none =>
    rw [tryFrom_tag_invalid _ (by omega) (by rw [e2, htag])]
  | some t =>
    by_cases hc : fromBeBytes (rest.take 4) = calculate_crc M
    · rw [tryFrom_ok _ t (by rw [e1]; omega) (by rw [e2, htag])
        (by rw [e1, e4, e2, e3, List.take_append_drop]; exact hc)]
      dsimp only
      rw [if_pos hc, e1, e4, e3]
    · rw [tryFrom_crc_bad _ (by rw [e1]; omega) (by rw [e2, htag]; rfl)
        (by rw [e1, e4, e2, e3, List.take_append_drop]; exact hc)]
      dsimp only
      rw [if_neg hc]

lemma Chunk.new_def (t : ChunkType) (data : List Nat) :
    Chunk.new t data =
      { length := data.length % 2 ^ 32, chunk_type := t, data := data,
        crc := calculate_crc (t.bytes ++ data) } := rfl

lemma Chunk.new_length_eq (t : ChunkType) (data : List Nat) :
    (Chunk.new t data).length = data.length % 2 ^ 32 := rfl

lemma Chunk.as_bytes_new (t : ChunkType) (data : List Nat) :
    (Chunk.new t data).as_bytes =
      toBeBytes (data.length % 2 ^ 32) ++ ((t.bytes ++ data) ++
        toBeBytes (calculate_crc (t.bytes ++ data))) := by
  show toBeBytes (data.length % 2 ^ 32) ++ t.bytes ++ data ++
    toBeBytes (calculate_crc (t.bytes ++ data)) = _
  rw [List.append_assoc, List.append_assoc,
    ← List.append_assoc t.bytes data (toBeBytes (calculate_crc (t.bytes ++ data)))]

/-! Claim theorems. -/

/-- C1 (amended): for every valid tag, and every payload of bytes whose
count is below 2 ^ 32, the chunk built by `Chunk.new` round-trips: parsing
its `as_bytes` serialization succeeds and returns the same chunk.  (For
payloads of 2 ^ 32 bytes or more the `as u32` cast truncates the length
field and the round-trip fails; see the counterexample.) -/
theorem chunk_roundtrip (t : ChunkType) (data : List Nat) (hvalid : t.isValid = true)
    (hbytes : ∀ b ∈ data, b < 256) (hlen : data.length < 2 ^ 32) :
    Chunk.tryFrom (Chunk.new t data).as_bytes = .ok (Chunk.new t data) := by
  have hshape : (Chunk.new t data).as_bytes =
      toBeBytes data.length ++ ((t.bytes ++ data) ++
        toBeBytes (calculate_crc (t.bytes ++ data))) := by
    rw [Chunk.as_bytes_new, Nat.mod_eq_of_lt hlen]
  have hMlen : (t.bytes ++ data).length = 4 + data.length := by
    rw [List.length_append, show (ChunkType.bytes t).length = 4 from rfl]
  rw [hshape, tryFrom_framed data.length (t.bytes ++ data) _ hMlen hlen
    (by rw [toBeBytes_length])]
  have et : (t.bytes ++ data).take 4 = t.bytes := by
    rw [show (4 : Nat) = (ChunkType.bytes t).length from rfl, List.take_left]
  rw [et, tryFrom_bytes_of_valid t hvalid]
  dsimp only
  have hcrclt : calculate_crc (t.bytes ++ data) < 2 ^ 32 :=
    new_crc_lt t data hvalid hbytes
  have etake : (toBeBytes (calculate_crc (t.bytes ++ data))).take 4 =
      toBeBytes (calculate_crc (t.bytes ++ data)) := by
    rw [← toBeBytes_length (calculate_crc (t.bytes ++ data)), List.take_length]
  rw [etake, fromBe_toBe _ hcrclt, if_pos rfl]
  have ed : (t.bytes ++ data).drop 4 = data := by
    rw [show (4 : Nat) = (ChunkType.bytes t).length from rfl, List.drop_left]
  rw [ed]
  rw [Chunk.new_def, Nat.mod_eq_of_lt hlen]

/-- Witness for C1: the round-trip theorem applied to the tag "RuSt" and
the payload [7, 8]. -/
theorem chunk_roundtrip_witness :
    Chunk.tryFrom (Chunk.new ⟨82, 117, 83, 116⟩ [7, 8]).as_bytes =
      .ok (Chunk.new ⟨82, 117, 83, 116⟩ [7, 8]) :=
  chunk_roundtrip ⟨82, 117, 83, 116⟩ [7, 8] (by decide) (by decide) (by decide)

/-- Counterexample to C1 as stated: for the 2 ^ 32-byte payload the length
field is truncated to 0 by the `as u32` cast, and parsing the serialized
bytes reads a zero-length payload, takes four payload zero bytes as the
stored checksum, and fails with a checksum mismatch instead of returning
the original chunk. -/
theorem chunk_roundtrip_huge_counterexample :
    Chunk.tryFrom (Chunk.new ⟨82, 117, 83, 116⟩ (List.replicate (2 ^ 32) 0)).as_bytes =
      .error .checksumMismatch := by
  have hshape : (Chunk.new ⟨82, 117, 83, 116⟩ (List.replicate (2 ^ 32) 0)).as_bytes =
      toBeBytes 0 ++ (ChunkType.bytes ⟨82, 117, 83, 116⟩ ++
        (List.replicate (2 ^ 32) 0 ++
          toBeBytes (calculate_crc (ChunkType.bytes ⟨82, 117, 83, 116⟩ ++
            List.replicate (2 ^ 32) 0)))) := by
    rw [Chunk.as_bytes_new, List.length_replicate, Nat.mod_self, List.append_assoc]
  rw [hshape, tryFrom_framed 0 (ChunkType.bytes ⟨82, 117, 83, 116⟩) _ rfl (by norm_num)
    (by rw [List.length_append, List.length_replicate, toBeBytes_length]; omega)]
  have etag : ChunkType.tryFrom ((ChunkType.bytes ⟨82, 117, 83, 116⟩).take 4) =
      some ⟨82, 117, 83, 116⟩ := by decide
  rw [etag]
  dsimp only
  have etake : ((List.replicate (2 ^ 32) (0 : Nat) ++
      toBeBytes (calculate_crc (ChunkType.bytes ⟨82, 117, 83, 116⟩ ++
        List.replicate (2 ^ 32) 0))).take 4) = [0, 0, 0, 0] := by
    rw [List.take_append_of_le_length (by rw [List.length_replicate]; omega),
      List.take_replicate, Nat.min_eq_left (by omega)]
    rfl
  rw [etake, if_neg (by decide)]

/-- C6 (amended): the length field computed by `Chunk.new` equals the
payload length whenever the payload holds fewer than 2 ^ 32 bytes (the
field is `data.len() as u32`). -/
theorem chunk_new_length (t : ChunkType) (data : List Nat) (h : data.length < 2 ^ 32) :
    (Chunk.new t data).length = data.length := by
  rw [Chunk.new_length_eq]
  exact Nat.mod_eq_of_lt h

/-- Witness for C6: the length theorem applied at the tag "RuSt" and the
two-byte payload [1, 2]. -/
theorem chunk_new_length_witness : (Chunk.new ⟨82, 117, 83, 116⟩ [1, 2]).length = 2 :=
  chunk_new_length ⟨82, 117, 83, 116⟩ [1, 2] (by decide)

/-- Counterexample to C6 as stated: a payload of exactly 2 ^ 32 bytes gives
a chunk whose length field is 0, not the payload length. -/
theorem chunk_new_length_huge_counterexample :
    (Chunk.new ⟨82, 117, 83, 116⟩ (List.replicate (2 ^ 32) 0)).length = 0 ∧
      (List.replicate (2 ^ 32) (0 : Nat)).length = 2 ^ 32 := by
  constructor
  · rw [Chunk.new_length_eq, List.length_replicate, Nat.mod_self]
  · exact List.length_replicate _ _

/-- C8: the "length of data is not the same as the specified length" branch
of `Chunk::try_from` (src/chunk.rs lines 95-100) is unreachable: no input
buffer makes `Chunk.tryFrom` return that error, because a successful
`read_exact` into a buffer of `length` zero bytes always yields exactly
`length` bytes. -/
theorem lengthMismatch_unreachable (value : List Nat) :
    Chunk.tryFrom value ≠ .error .lengthMismatch := by
  by_cases h4 : value.length < 4
  · rw [tryFrom_eof_len value h4]
    simp
  by_cases h8 : value.length < 8
  · rw [tryFrom_eof_tag value (by omega) h8]
    simp
  cases htag : ChunkType.tryFrom ((value.drop 4).take 4) with
  | none =>
    rw [tryFrom_tag_invalid value (by omega) htag]
    simp
  | some t =>
    by_cases hp : value.length < 8 + fromBeBytes (value.take 4)
    · rw [tryFrom_eof_payload value (by omega) (by rw [htag]; rfl) hp]
      simp
    by_cases hc4 : value.length < 12 + fromBeBytes (value.take 4)
    · rw [tryFrom_eof_crc value (by omega) (by rw [htag]; rfl) hc4]
      simp
    by_cases hcrc : fromBeBytes ((value.drop (8 + fromBeBytes (value.take 4))).take 4) =
        calculate_crc ((value.drop 4).take 4 ++
          (value.drop 8).take (fromBeBytes (value.take 4)))
    · rw [tryFrom_ok value t (by omega) htag hcrc]
      simp
    · rw [tryFrom_crc_bad value (by omega) (by rw [htag]; rfl) hcrc]
      simp

/-- Witness for C8: the unreachability theorem applied to a concrete
buffer. -/
theorem lengthMismatch_unreachable_witness :
    (Chunk.tryFrom [0, 0, 0, 0] = .error .lengthMismatch) = False :=
  eq_false (lengthMismatch_unreachable [0, 0, 0, 0])

set_option maxRecDepth 8192 in
/-- Counterexample to C4 as stated: the spec gives the payload length as
44, but the payload "This is where your secret message will be!" has 42
bytes; a buffer declaring length 44 over that payload consumes two checksum
bytes as payload and then hits end of input, so parsing fails instead of
succeeding. -/
theorem rust_chunk_length44_counterexample :
    Chunk.tryFrom (toBeBytes 44 ++ ([82, 117, 83, 116] ++
      (secretMessage ++ toBeBytes 2882656334))) = .error .unexpectedEof := by
  decide

set_option maxRecDepth 8192 in
/-- C4 (amended, length 42 instead of 44): the chunk built by `Chunk.new`
from tag "RuSt" and the secret-message payload has checksum 2882656334 and
length 42; the buffer assembled from length 42, the tag bytes, the payload
and big-endian checksum 2882656334 parses successfully into exactly that
chunk, while the same buffer with checksum 2882656333 fails to parse. -/
theorem rust_chunk_endtoend :
    (Chunk.new ⟨82, 117, 83, 116⟩ secretMessage).crc = 2882656334 ∧
    (Chunk.new ⟨82, 117, 83, 116⟩ secretMessage).length = 42 ∧
    Chunk.tryFrom (toBeBytes 42 ++ ([82, 117, 83, 116] ++
      (secretMessage ++ toBeBytes 2882656334))) =
      .ok { length := 42, chunk_type := ⟨82, 117, 83, 116⟩, data := secretMessage,
            crc := 2882656334 } ∧
    Chunk.tryFrom (toBeBytes 42 ++ ([82, 117, 83, 116] ++
      (secretMessage ++ toBeBytes 2882656333))) = .error .checksumMismatch := by
  decide

/-! Flip-of-one-bit framing lemmas. -/

lemma flipBit_def (bs : List Nat) (i j : Nat) :
    flipBit bs i j = bs.set i (bs.getD i 0 ^^^ 2 ^ j) := rfl

lemma flipBit_length (bs : List Nat) (i j : Nat) :
    (flipBit bs i j).length = bs.length := by
  unfold flipBit
  rw [List.length_set]

lemma flipBit_append_right (xs ys : List Nat) (i j : Nat) (h : xs.length ≤ i) :
    flipBit (xs ++ ys) i j = xs ++ flipBit ys (i - xs.length) j := by
  unfold flipBit
  rw [List.getD_append_right xs ys 0 i h, List.set_append_right _ _ h]

lemma flipBit_append_left (xs ys : List Nat) (i j : Nat) (h : i < xs.length) :
    flipBit (xs ++ ys) i j = flipBit xs i j ++ ys := by
  unfold flipBit
  rw [List.getD_append xs ys 0 i h, List.set_append_left _ _ h]

/-- C3: the stage-by-stage contract of `Chunk.tryFrom` on an arbitrary
input buffer: `UnexpectedEof` whenever fewer bytes remain than the current
stage demands (length field, tag, payload of the declared big-endian
length, checksum), `ChecksumMismatch` when all fields were read but the
CRC-32 of tag bytes ++ payload differs from the stored checksum, and on
success a chunk whose four fields are exactly the parsed values.  Stages
are sequential: the conditions about the payload and checksum stages are
stated under the assumption that the tag stage succeeded. -/
theorem chunk_parse_stages (buf : List Nat) :
    (buf.length < 4 → Chunk.tryFrom buf = .error .unexpectedEof) ∧
    (4 ≤ buf.length → buf.length < 8 → Chunk.tryFrom buf = .error .unexpectedEof) ∧
    (8 ≤ buf.length → (ChunkType.tryFrom ((buf.drop 4).take 4)).isSome →
      buf.length < 8 + fromBeBytes (buf.take 4) →
      Chunk.tryFrom buf = .error .unexpectedEof) ∧
    (8 + fromBeBytes (buf.take 4) ≤ buf.length →
      (ChunkType.tryFrom ((buf.drop 4).take 4)).isSome →
      buf.length < 12 + fromBeBytes (buf.take 4) →
      Chunk.tryFrom buf = .error .unexpectedEof) ∧
    (12 + fromBeBytes (buf.take 4) ≤ buf.length →
      (ChunkType.tryFrom ((buf.drop 4).take 4)).isSome →
      fromBeBytes ((buf.drop (8 + fromBeBytes (buf.take 4))).take 4) ≠
        calculate_crc ((buf.drop 4).take 4 ++
          (buf.drop 8).take (fromBeBytes (buf.take 4))) →
      Chunk.tryFrom buf = .error .checksumMismatch) ∧
    (∀ t, 12 + fromBeBytes (buf.take 4) ≤ buf.length →
      ChunkType.tryFrom ((buf.drop 4).take 4) = some t →
      fromBeBytes ((buf.drop (8 + fromBeBytes (buf.take 4))).take 4) =
        calculate_crc ((buf.drop 4).take 4 ++
          (buf.drop 8).take (fromBeBytes (buf.take 4))) →
      Chunk.tryFrom buf =
        .ok { length := fromBeBytes (buf.take 4), chunk_type := t,
              data := (buf.drop 8).take (fromBeBytes (buf.take 4)),
              crc := fromBeBytes ((buf.drop (8 + fromBeBytes (buf.take 4))).take 4) }) :=
  ⟨fun h => tryFrom_eof_len buf h,
   fun h4 h8 => tryFrom_eof_tag buf h4 h8,
   fun h8 ht hlt => tryFrom_eof_payload buf h8 ht hlt,
   fun hp ht hlt => tryFrom_eof_crc buf hp ht hlt,
   fun hp ht hcrc => tryFrom_crc_bad buf hp ht hcrc,
   fun t hp ht hcrc => tryFrom_ok buf t hp ht hcrc⟩

/-- Witness for C3: the success stage at the concrete buffer holding the
empty-payload "RuSt" chunk with its correct checksum 3565422908. -/
theorem chunk_parse_stages_witness :
    Chunk.tryFrom (toBeBytes 0 ++ ([82, 117, 83, 116] ++ toBeBytes 3565422908)) =
      .ok { length := 0, chunk_type := ⟨82, 117, 83, 116⟩, data := [],
            crc := 3565422908 } :=
  ((chunk_parse_stages
      (toBeBytes 0 ++ ([82, 117, 83, 116] ++ toBeBytes 3565422908))).2.2.2.2.2
    ⟨82, 117, 83, 116⟩ (by decide) (by decide) (by decide)).trans (by decide)

/-- Counterexample to C2 as stated: flipping the top bit of the first tag
byte of the serialized empty-payload "RuSt" chunk (bit 7 of byte 4, with
the stored checksum bytes untouched) pushes the byte out of the ASCII
letter range, so parsing fails with the tag-validity error, not with
`ChecksumMismatch`. -/
theorem checksum_flip_tag_counterexample :
    Chunk.tryFrom (flipBit (Chunk.new ⟨82, 117, 83, 116⟩ []).as_bytes 4 7) =
      .error .invalidTagBytes := by
  decide

/-- C2 (amended): flipping any single bit of the tag bytes or the payload
bytes of a serialized chunk, while leaving the stored checksum unchanged,
makes parsing fail with `ChecksumMismatch`, provided the four tag bytes of
the corrupted buffer still form a valid tag (always the case for payload
flips; a tag flip that leaves the ASCII-letter range fails with the
tag-validity error instead, as the counterexample shows). -/
theorem checksum_flip_detected (t : ChunkType) (data : List Nat) (i j : Nat)
    (hvalid : t.isValid = true) (hbytes : ∀ b ∈ data, b < 256)
    (hlen : data.length < 2 ^ 32) (hi4 : 4 ≤ i) (hi : i < 8 + data.length)
    (hj : j < 8)
    (htag : (ChunkType.tryFrom
      (((flipBit (Chunk.new t data).as_bytes i j).drop 4).take 4)).isSome) :
    Chunk.tryFrom (flipBit (Chunk.new t data).as_bytes i j) =
      .error .checksumMismatch := by
  have hshape : (Chunk.new t data).as_bytes =
      toBeBytes data.length ++ ((t.bytes ++ data) ++
        toBeBytes (calculate_crc (t.bytes ++ data))) := by
    rw [Chunk.as_bytes_new, Nat.mod_eq_of_lt hlen]
  have hMlen : (t.bytes ++ data).length = 4 + data.length := by
    rw [List.length_append, show (ChunkType.bytes t).length = 4 from rfl]
  have hflip : flipBit (Chunk.new t data).as_bytes i j =
      toBeBytes data.length ++
        (flipBit ((t.bytes ++ data) ++ toBeBytes (calculate_crc (t.bytes ++ data)))
          (i - 4) j) := by
    rw [hshape, flipBit_append_right _ _ i j (by rw [toBeBytes_length]; omega),
      toBeBytes_length]
  have hmid : flipBit ((t.bytes ++ data) ++ toBeBytes (calculate_crc (t.bytes ++ data)))
      (i - 4) j =
      flipBit (t.bytes ++ data) (i - 4) j ++
        toBeBytes (calculate_crc (t.bytes ++ data)) := by
    rw [flipBit_append_left _ _ (i - 4) j (by rw [hMlen]; omega)]
  have hM2len : (flipBit (t.bytes ++ data) (i - 4) j).length = 4 + data.length := by
    rw [flipBit_length, hMlen]
  rw [hflip, hmid] at htag ⊢
  rw [drop_four_toBe] at htag
  rw [List.take_append_of_le_length (by rw [hM2len]; omega)] at htag
  obtain ⟨t2, ht2⟩ := Option.isSome_iff_exists.mp htag
  rw [tryFrom_framed data.length (flipBit (t.bytes ++ data) (i - 4) j) _ hM2len hlen
    (by rw [toBeBytes_length]), ht2]
  dsimp only
  have hcrclt : calculate_crc (t.bytes ++ data) < 2 ^ 32 :=
    new_crc_lt t data hvalid hbytes
  have hne : calculate_crc (flipBit (t.bytes ++ data) (i - 4) j) ≠
      calculate_crc (t.bytes ++ data) := by
    rw [flipBit_def]
    exact calculate_crc_set_ne (t.bytes ++ data) (i - 4) j (by rw [hMlen]; omega) hj
  rw [take_four_toBeBytes, fromBe_toBe _ hcrclt, if_neg (fun he => hne he.symm)]

/-- Witness for C2: flipping bit 0 of the single payload byte of the
serialized chunk with tag "RuSt" and payload [0] is caught as a checksum
mismatch. -/
theorem checksum_flip_detected_witness :
    Chunk.tryFrom (flipBit (Chunk.new ⟨82, 117, 83, 116⟩ [0]).as_bytes 8 0) =
      .error .checksumMismatch :=
  checksum_flip_detected ⟨82, 117, 83, 116⟩ [0] 8 0 (by decide) (by decide)
    (by decide) (by decide) (by decide) (by decide) (by decide)

lemma ChunkType.bytes_inj (t u : ChunkType) (h : t.bytes = u.bytes) : t = u := by
  obtain ⟨a0, a1, a2, a3⟩ := t
  obtain ⟨b0, b1, b2, b3⟩ := u
  simp only [ChunkType.bytes, List.cons.injEq, and_true] at h
  obtain ⟨h0, h1, h2, h3⟩ := h
  subst h0
  subst h1
  subst h2
  subst h3
  rfl

lemma removeFirst_append_fresh (c : Chunk) :
    ∀ l : List Chunk, (∀ d ∈ l, d.chunk_type ≠ c.chunk_type) →
      removeFirst c.chunk_type.bytes (l ++ [c]) = some (c, l)
  | [], _ => by simp [removeFirst]
  | d :: l, h => by
    have hd : d.chunk_type ≠ c.chunk_type := h d (List.mem_cons_self d l)
    have hne : ¬ d.chunk_type.bytes = c.chunk_type.bytes := fun hbeq =>
      hd (ChunkType.bytes_inj _ _ hbeq)
    show removeFirst c.chunk_type.bytes (d :: (l ++ [c])) = some (c, d :: l)
    unfold removeFirst
    rw [if_neg hne,
      removeFirst_append_fresh c l (fun e he => h e (List.mem_cons_of_mem d he))]

/-- Counterexample to C5 as stated: a parsed container already holding a
"RuSt" chunk with payload [1]; appending a fresh "RuSt" chunk with empty
payload and then removing by tag "RuSt" returns the pre-existing chunk
(payload [1]), not the appended one (payload []), and the remaining
container keeps the appended chunk, so its serialized bytes differ from
the original container's bytes. -/
theorem append_remove_duplicate_counterexample :
    Png.tryFrom (PNG_SIGNATURE ++ (Chunk.new ⟨82, 117, 83, 116⟩ [1]).as_bytes) =
      .ok ⟨[Chunk.new ⟨82, 117, 83, 116⟩ [1]]⟩ ∧
    (Png.append_chunk ⟨[Chunk.new ⟨82, 117, 83, 116⟩ [1]]⟩
        (Chunk.new ⟨82, 117, 83, 116⟩ [])).remove_chunk
      (ChunkType.bytes ⟨82, 117, 83, 116⟩) =
      .ok (Chunk.new ⟨82, 117, 83, 116⟩ [1], ⟨[Chunk.new ⟨82, 117, 83, 116⟩ []]⟩) ∧
    (Chunk.new ⟨82, 117, 83, 116⟩ [1]).data = [1] ∧
    (Chunk.new ⟨82, 117, 83, 116⟩ []).data = [] := by
  decide

/-- C5 (amended): for every successfully parsed container `p` that holds
no chunk with the tag of `c`, appending `c` and then removing by that tag
returns `c` together with exactly the original container `p` (hence the
resulting container's `as_bytes` output equals `p`'s).  When `p` already
holds a chunk with that tag, the first match is removed instead, as the
counterexample shows. -/
theorem append_remove_inverse (buf : List Nat) (p : Png) (c : Chunk)
    (hp : Png.tryFrom buf = .ok p)
    (hfresh : ∀ d ∈ p.chunks, d.chunk_type ≠ c.chunk_type) :
    (p.append_chunk c).remove_chunk c.chunk_type.bytes = .ok (c, p) := by
  obtain ⟨l⟩ := p
  unfold Png.append_chunk Png.remove_chunk
  rw [removeFirst_append_fresh c l hfresh]

/-- Witness for C5: the empty container parsed from the bare signature,
with the empty-payload "RuSt" chunk appended and removed. -/
theorem append_remove_inverse_witness :
    (Png.append_chunk ⟨[]⟩ (Chunk.new ⟨82, 117, 83, 116⟩ [])).remove_chunk
      (Chunk.new ⟨82, 117, 83, 116⟩ []).chunk_type.bytes =
      .ok (Chunk.new ⟨82, 117, 83, 116⟩ [], ⟨[]⟩) :=
  append_remove_inverse PNG_SIGNATURE ⟨[]⟩ (Chunk.new ⟨82, 117, 83, 116⟩ [])
    (by decide) (by decide)

/-- C7: `run_remove` never writes the mutated container back: whatever the
input file and tag, and however the pipeline succeeds or fails, the file
system component of the resulting state is exactly the input file system
(the only state change is console output).  The source of run_remove
(src/commands.rs lines 43-53) issues no write call. -/
theorem run_remove_preserves_fs (args : RemoveArgs) (s : SysState) :
    ((run_remove args s).2).fs = s.fs := by
  unfold run_remove
  split
  · rfl
  · split
    · rfl
    · split
      · rfl
      · rfl

end PngSecret
